import Mathlib

/-!
Verification development for the kekkai CLI (src/kekkai/cli.py, src/kekkai/jj.py,
src/kekkai/errors.py): a shallow embedding of the workspace lifecycle state
machine, the stderr error classifier, the path model, the marker store, the
listing logic, the cleanup protocol, and the name-suggestion helper.

Modelling conventions:
  - Python strings are Lean `String`s; where character-level operations matter
    (substring search, split, strip, lower) they are defined on `List Char`,
    matching Python semantics for the ASCII inputs the program handles.
  - Filesystem and subprocess effects are modelled by explicit state records
    and fault oracles: a Boolean fault bit per side-effecting call says
    whether that call raises, and the embedding threads the state exactly in
    the order the source performs the calls.
  - `json.loads` of a marker file is modelled at the JSON-object level: a
    marker file is absent, unreadable (OSError on read), unparseable
    (JSONDecodeError), or a parsed object with string fields; `dict.get` is
    association-list lookup.
  - `pathlib.PurePosixPath` values are modelled by their component lists
    (the `parts` after the root), which determine the normalized `str` form;
    splitting a path string drops empty and "." components exactly as
    pathlib does.
-/

deriving instance DecidableEq for Except

namespace Kekkai

/-- Python `needle in haystack` prefix worker: does `nd` occur at the start of `hs`. -/
def pyStartsWith : List Char → List Char → Bool
  | _, [] => true
  | [], _ :: _ => false
  | c :: cs, d :: ds => c == d && pyStartsWith cs ds

/-- Python `nd in hs` for strings as char lists: contiguous substring occurrence. -/
def pyContainsSub : List Char → List Char → Bool
  | [], nd => pyStartsWith [] nd
  | c :: cs, nd => pyStartsWith (c :: cs) nd || pyContainsSub cs nd

/-- Python `needle in haystack` on `String`, as used by the stderr classifier
and the status check. -/
def strContains (haystack needle : String) : Bool :=
  pyContainsSub haystack.toList needle.toList

/-- Error taxonomy of src/kekkai/errors.py: `NotJJRepoError`,
`WorkspaceExistsError`, `WorkspaceNotFoundError`, `JJCommandError` (which
carries the command, stderr and return code). Each constructor carries the
message the source passes to the exception. -/
inductive KekkaiError where
  | notJJRepo (stderr : String)
  | workspaceExists (stderr : String)
  | workspaceNotFound (stderr : String)
  | jjCommand (cmd : String) (stderr : String) (returncode : Int)
deriving DecidableEq, Repr

/-- Embedding of `_parse_error` from src/kekkai/jj.py: priority-ordered
substring match over stderr text. -/
def _parse_error (cmd stderr : String) (returncode : Int) : KekkaiError :=
  if strContains stderr "There is no jj repo in" then KekkaiError.notJJRepo stderr
  else if strContains stderr "already exists" then KekkaiError.workspaceExists stderr
  else if strContains stderr "No such workspace" then KekkaiError.workspaceNotFound stderr
  else KekkaiError.jjCommand cmd stderr returncode

/-- C2: for every stderr text, classification is a priority-ordered substring
match: the no-repository pattern wins, then "already exists", then the
no-such-workspace pattern, and only otherwise is the generic error (carrying
command, stderr and exit code) produced; in particular a no-such-workspace
message is never classified as generic. -/
theorem parse_error_priority_spec (cmd stderr : String) (rc : Int) :
    (strContains stderr "There is no jj repo in" = true →
      _parse_error cmd stderr rc = KekkaiError.notJJRepo stderr)
    ∧ (strContains stderr "There is no jj repo in" = false →
       strContains stderr "already exists" = true →
      _parse_error cmd stderr rc = KekkaiError.workspaceExists stderr)
    ∧ (strContains stderr "There is no jj repo in" = false →
       strContains stderr "already exists" = false →
       strContains stderr "No such workspace" = true →
      _parse_error cmd stderr rc = KekkaiError.workspaceNotFound stderr)
    ∧ (strContains stderr "There is no jj repo in" = false →
       strContains stderr "already exists" = false →
       strContains stderr "No such workspace" = false →
      _parse_error cmd stderr rc = KekkaiError.jjCommand cmd stderr rc)
    ∧ (strContains stderr "No such workspace" = true →
       ∀ (c s : String) (r : Int),
        _parse_error cmd stderr rc ≠ KekkaiError.jjCommand c s r) := by
  refine ⟨?_, ?_, ?_, ?_, ?_⟩
  · intro h1
    simp [_parse_error, h1]
  · intro h1 h2
    simp [_parse_error, h1, h2]
  · intro h1 h2 h3
    simp [_parse_error, h1, h2, h3]
  · intro h1 h2 h3
    simp [_parse_error, h1, h2, h3]
  · intro h3 c s r
    unfold _parse_error
    by_cases h1 : strContains stderr "There is no jj repo in" = true
    · simp [h1]
    · by_cases h2 : strContains stderr "already exists" = true
      · simp [h1, h2]
      · simp only [Bool.not_eq_true] at h1 h2
        simp [h1, h2, h3]

/-- Witness for C2: a concrete stderr text containing the no-such-workspace
pattern (and neither higher-priority pattern) is classified as
`WorkspaceNotFoundError`, not as generic. -/
theorem parse_error_priority_spec_witness :
    _parse_error "forget" "Error: No such workspace repo-foo" 2
      = KekkaiError.workspaceNotFound "Error: No such workspace repo-foo" :=
  (parse_error_priority_spec "forget" "Error: No such workspace repo-foo" 2).2.2.1
    (by decide) (by decide) (by decide)

/-- State of the agent marker file `.jj/kekkai-agent` inside a given
directory, at the abstraction level the source observes it: `exists()` is
false (`absent`), `read_text()` raises OSError (`unreadable`), `json.loads`
raises JSONDecodeError (`unparseable`), or it parses to a JSON object whose
string fields are the association list `fields` (duplicate keys do not arise;
`dict.get` is first-match lookup). -/
inductive MarkerContent where
  | absent
  | unreadable
  | unparseable
  | parsed (fields : List (String × String))
deriving DecidableEq, Repr

/-- Embedding of `find_root_workspace` from src/kekkai/cli.py. `current_root`
is the path returned by `client.workspace_root()`; `markerAt d` is the state
of the marker file inside directory `d`. The walrus test
`if root := data.get("root_workspace")` is falsy both for a missing key and
for an empty string value. -/
def find_root_workspace (current_root : String)
    (markerAt : String → MarkerContent) : String :=
  match markerAt current_root with
  | MarkerContent.absent => current_root
  | MarkerContent.unreadable => current_root
  | MarkerContent.unparseable => current_root
  | MarkerContent.parsed fields =>
    match fields.lookup "root_workspace" with
    | some r => if r = "" then current_root else r
    | none => current_root

/-- C4: root resolution follows the marker indirection exactly one level and
fails open: a parsed marker with a non-empty `root_workspace` field redirects
to that value; in every other case (absent, unreadable, unparseable file,
missing or empty field) the VCS-reported root itself is returned; and
resolving from inside an agent workspace gives the same value as resolving
from the true root directly. -/
theorem find_root_workspace_spec (current_root : String)
    (markerAt : String → MarkerContent) :
    (∀ (fields : List (String × String)) (r : String),
      markerAt current_root = MarkerContent.parsed fields →
      fields.lookup "root_workspace" = some r → r ≠ "" →
      find_root_workspace current_root markerAt = r)
    ∧ (markerAt current_root = MarkerContent.absent →
      find_root_workspace current_root markerAt = current_root)
    ∧ (markerAt current_root = MarkerContent.unreadable →
      find_root_workspace current_root markerAt = current_root)
    ∧ (markerAt current_root = MarkerContent.unparseable →
      find_root_workspace current_root markerAt = current_root)
    ∧ (∀ fields, markerAt current_root = MarkerContent.parsed fields →
      fields.lookup "root_workspace" = none →
      find_root_workspace current_root markerAt = current_root)
    ∧ (∀ fields, markerAt current_root = MarkerContent.parsed fields →
      fields.lookup "root_workspace" = some "" →
      find_root_workspace current_root markerAt = current_root)
    ∧ (∀ (rootDir : String) (fields : List (String × String)),
      markerAt current_root = MarkerContent.parsed fields →
      fields.lookup "root_workspace" = some rootDir → rootDir ≠ "" →
      markerAt rootDir = MarkerContent.absent →
      find_root_workspace current_root markerAt
        = find_root_workspace rootDir markerAt) := by
  refine ⟨?_, ?_, ?_, ?_, ?_, ?_, ?_⟩
  · intro fields r hm hl hr
    simp [find_root_workspace, hm, hl, hr]
  · intro hm
    simp [find_root_workspace, hm]
  · intro hm
    simp [find_root_workspace, hm]
  · intro hm
    simp [find_root_workspace, hm]
  · intro fields hm hl
    simp [find_root_workspace, hm, hl]
  · intro fields hm hl
    simp [find_root_workspace, hm, hl]
  · intro rootDir fields hm hl hr hroot
    simp [find_root_workspace, hm, hl, hr, hroot]

/-- Witness for C4: with a concrete marker map in which the agent workspace
`/tmp/repo-a` holds a parsed marker pointing at `/tmp/repo` and the true root
holds no marker, resolution from the agent workspace returns `/tmp/repo`,
and it agrees with resolution from the true root. -/
theorem find_root_workspace_spec_witness :
    find_root_workspace "/tmp/repo-a"
      (fun d => if d = "/tmp/repo-a"
        then MarkerContent.parsed [("root_workspace", "/tmp/repo")]
        else MarkerContent.absent) = "/tmp/repo"
    ∧ find_root_workspace "/tmp/repo-a"
      (fun d => if d = "/tmp/repo-a"
        then MarkerContent.parsed [("root_workspace", "/tmp/repo")]
        else MarkerContent.absent)
      = find_root_workspace "/tmp/repo"
      (fun d => if d = "/tmp/repo-a"
        then MarkerContent.parsed [("root_workspace", "/tmp/repo")]
        else MarkerContent.absent) := by
  constructor
  · exact (find_root_workspace_spec "/tmp/repo-a" _).1
      [("root_workspace", "/tmp/repo")] "/tmp/repo" (by decide) (by decide) (by decide)
  · exact (find_root_workspace_spec "/tmp/repo-a" _).2.2.2.2.2.2
      "/tmp/repo" [("root_workspace", "/tmp/repo")] (by decide) (by decide)
      (by decide) (by decide)

/-- Workspace record parsed from one line of `jj workspace list` output
(src/kekkai/jj.py, class `Workspace`). -/
structure Workspace where
  name : String
  change_id : String
  commit_id : String
  summary : String
deriving DecidableEq, Repr

/-- Python slice `s[n:]` on a string, by character count. -/
def strDropChars (s : String) (n : Nat) : String :=
  String.mk (s.toList.drop n)

/-- Embedding of the loop body of `list_workspaces` (src/kekkai/cli.py,
lines 296-322): `rootName` is `Path(root).name`, `wss` the registered
workspaces, and `markerAt n` the state of the marker file inside the sibling
directory named `n` (i.e. `Path(root).parent / n / AGENT_MARKER_FILE`).
The result lists the printed entries in order: agent name (registered name
with the `<rootName>-` prefix stripped), reported agent type, and the
workspace record. A parse failure (or read failure) of an existing marker
yields agent type "unknown"; a parsed marker missing the "agent" key yields
the backward-compatibility default "claude". -/
def list_workspaces_entries (rootName : String) (wss : List Workspace)
    (markerAt : String → MarkerContent) : List (String × String × Workspace) :=
  wss.filterMap fun ws =>
    if ws.name = "default" then none
    else if pyStartsWith ws.name.toList (rootName ++ "-").toList then
      match markerAt ws.name with
      | MarkerContent.absent => none
      | MarkerContent.unreadable =>
        some (strDropChars ws.name (rootName ++ "-").length, "unknown", ws)
      | MarkerContent.unparseable =>
        some (strDropChars ws.name (rootName ++ "-").length, "unknown", ws)
      | MarkerContent.parsed fields =>
        some (strDropChars ws.name (rootName ++ "-").length,
          (fields.lookup "agent").getD "claude", ws)
    else none

/-- Helper: a registered workspace that passes the default-name check and the
naming-convention check and whose marker directory is in state `m ≠ absent`
appears in the listing with the agent type determined by `m`. -/
theorem mem_list_workspaces_entries (rootName : String) (wss : List Workspace)
    (markerAt : String → MarkerContent) (ws : Workspace) (ty : String)
    (hmem : ws ∈ wss) (hdef : ws.name ≠ "default")
    (hpre : pyStartsWith ws.name.toList (rootName ++ "-").toList = true)
    (hty : (match markerAt ws.name with
      | MarkerContent.absent => none
      | MarkerContent.unreadable => some "unknown"
      | MarkerContent.unparseable => some "unknown"
      | MarkerContent.parsed fields => some ((fields.lookup "agent").getD "claude"))
      = some ty) :
    (strDropChars ws.name (rootName ++ "-").length, ty, ws)
      ∈ list_workspaces_entries rootName wss markerAt := by
  unfold list_workspaces_entries
  rw [List.mem_filterMap]
  refine ⟨ws, hmem, ?_⟩
  rw [if_neg hdef, if_pos hpre]
  cases hma : markerAt ws.name <;> rw [hma] at hty <;> simp_all

/-- Helper: every entry produced by the listing comes from a registered
workspace that is not "default", matches the naming convention, and whose
marker file exists (is not absent). -/
theorem list_workspaces_entries_sound (rootName : String) (wss : List Workspace)
    (markerAt : String → MarkerContent) (e : String × String × Workspace)
    (he : e ∈ list_workspaces_entries rootName wss markerAt) :
    e.2.2 ∈ wss ∧ e.2.2.name ≠ "default"
    ∧ pyStartsWith e.2.2.name.toList (rootName ++ "-").toList = true
    ∧ markerAt e.2.2.name ≠ MarkerContent.absent := by
  unfold list_workspaces_entries at he
  rw [List.mem_filterMap] at he
  obtain ⟨ws, hmem, hf⟩ := he
  by_cases hdef : ws.name = "default"
  · rw [if_pos hdef] at hf
    exact absurd hf (by simp)
  · rw [if_neg hdef] at hf
    by_cases hpre : pyStartsWith ws.name.toList (rootName ++ "-").toList = true
    · rw [if_pos hpre] at hf
      cases hma : markerAt ws.name
      · rw [hma] at hf
        exact absurd hf (by simp)
      · rw [hma] at hf
        simp only [Option.some.injEq] at hf
        subst hf
        exact ⟨hmem, hdef, hpre, by
          show markerAt ws.name ≠ MarkerContent.absent
          rw [hma]; simp⟩
      · rw [hma] at hf
        simp only [Option.some.injEq] at hf
        subst hf
        exact ⟨hmem, hdef, hpre, by
          show markerAt ws.name ≠ MarkerContent.absent
          rw [hma]; simp⟩
      · rw [hma] at hf
        simp only [Option.some.injEq] at hf
        subst hf
        exact ⟨hmem, hdef, hpre, by
          show markerAt ws.name ≠ MarkerContent.absent
          rw [hma]; simp⟩
    · rw [if_neg hpre] at hf
      exact absurd hf (by simp)

/-- Counterexample to C3: a sibling directory matching the naming convention
whose marker file exists but fails to parse is NOT excluded from the listing;
`list_workspaces` prints it with agent type "unknown" (src/kekkai/cli.py
lines 312-319 set `agent_type = "unknown"` on JSONDecodeError/OSError and
still print the entry). -/
theorem list_unparseable_included_counterexample :
    list_workspaces_entries "repo"
      [Workspace.mk "repo-foo" "chg" "cmt" "summary"]
      (fun _ => MarkerContent.unparseable)
      = [("foo", "unknown", Workspace.mk "repo-foo" "chg" "cmt" "summary")] := by
  decide

/-- C3 as amended: listing excludes the workspace named "default" and every
sibling-named directory whose marker file is absent, even when its registered
name matches the naming convention; but a directory whose marker file exists
and fails to parse (or cannot be read) is still listed, with its agent kind
reported as "unknown". -/
theorem list_workspaces_filter_amended (rootName : String)
    (wss : List Workspace) (markerAt : String → MarkerContent) :
    (∀ e ∈ list_workspaces_entries rootName wss markerAt,
      e.2.2.name ≠ "default" ∧ markerAt e.2.2.name ≠ MarkerContent.absent)
    ∧ (∀ ws ∈ wss, ws.name ≠ "default" →
      pyStartsWith ws.name.toList (rootName ++ "-").toList = true →
      markerAt ws.name = MarkerContent.unparseable →
      (strDropChars ws.name (rootName ++ "-").length, "unknown", ws)
        ∈ list_workspaces_entries rootName wss markerAt) := by
  constructor
  · intro e he
    have h := list_workspaces_entries_sound rootName wss markerAt e he
    exact ⟨h.2.1, h.2.2.2⟩
  · intro ws hmem hdef hpre hm
    exact mem_list_workspaces_entries rootName wss markerAt ws "unknown"
      hmem hdef hpre (by rw [hm])

/-- Witness for C3 (amended): a concrete convention-named workspace with an
unparseable marker is listed as "unknown". -/
theorem list_workspaces_filter_amended_witness :
    ("bar", "unknown", Workspace.mk "repo-bar" "c2" "k2" "s2")
      ∈ list_workspaces_entries "repo"
        [Workspace.mk "repo-bar" "c2" "k2" "s2"]
        (fun _ => MarkerContent.unparseable) := by
  have h := (list_workspaces_filter_amended "repo"
    [Workspace.mk "repo-bar" "c2" "k2" "s2"]
    (fun _ => MarkerContent.unparseable)).2
    (Workspace.mk "repo-bar" "c2" "k2" "s2")
    (by decide) (by decide) (by decide) (by decide)
  exact h

/-- Metadata record written to the agent marker file (src/kekkai/cli.py,
dataclass `AgentMarker`); the `agent` field defaults to "claude" for
backward compatibility. -/
structure AgentMarker where
  root_workspace : String
  name : String
  created_at : String
  agent : String := "claude"
deriving DecidableEq, Repr

/-- C9: a marker that parses but has no "agent" field is reported as agent
kind "claude" — the backward-compatibility default — both in the marker data
model (the dataclass field default) and in the listing (`data.get("agent",
"claude")`); a marker that exists but fails to parse is listed with agent
kind "unknown". -/
theorem agent_kind_default_spec :
    (∀ r n c, ({ root_workspace := r, name := n, created_at := c } : AgentMarker).agent
      = "claude")
    ∧ (∀ (rootName : String) (wss : List Workspace)
        (markerAt : String → MarkerContent) (ws : Workspace)
        (fields : List (String × String)),
      ws ∈ wss → ws.name ≠ "default" →
      pyStartsWith ws.name.toList (rootName ++ "-").toList = true →
      markerAt ws.name = MarkerContent.parsed fields →
      fields.lookup "agent" = none →
      (strDropChars ws.name (rootName ++ "-").length, "claude", ws)
        ∈ list_workspaces_entries rootName wss markerAt)
    ∧ (∀ (rootName : String) (wss : List Workspace)
        (markerAt : String → MarkerContent) (ws : Workspace),
      ws ∈ wss → ws.name ≠ "default" →
      pyStartsWith ws.name.toList (rootName ++ "-").toList = true →
      markerAt ws.name = MarkerContent.unparseable →
      (strDropChars ws.name (rootName ++ "-").length, "unknown", ws)
        ∈ list_workspaces_entries rootName wss markerAt) := by
  refine ⟨fun r n c => rfl, ?_, ?_⟩
  · intro rootName wss markerAt ws fields hmem hdef hpre hm hl
    exact mem_list_workspaces_entries rootName wss markerAt ws "claude"
      hmem hdef hpre (by rw [hm]; simp [hl])
  · intro rootName wss markerAt ws hmem hdef hpre hm
    exact mem_list_workspaces_entries rootName wss markerAt ws "unknown"
      hmem hdef hpre (by rw [hm])

/-- Witness for C9: a concrete marker parsed without an "agent" key lists the
workspace with agent kind "claude". -/
theorem agent_kind_default_spec_witness :
    ("baz", "claude", Workspace.mk "repo-baz" "c3" "k3" "s3")
      ∈ list_workspaces_entries "repo"
        [Workspace.mk "repo-baz" "c3" "k3" "s3"]
        (fun _ => MarkerContent.parsed [("root_workspace", "/tmp/repo")]) := by
  have h := agent_kind_default_spec.2.1 "repo"
    [Workspace.mk "repo-baz" "c3" "k3" "s3"]
    (fun _ => MarkerContent.parsed [("root_workspace", "/tmp/repo")])
    (Workspace.mk "repo-baz" "c3" "k3" "s3")
    [("root_workspace", "/tmp/repo")]
    (by decide) (by decide) (by decide) (by decide) (by decide)
  exact h

/-- Split a character list on the path separator, keeping empty pieces
(Python `"a//b".split("/") = ["a", "", "b"]`). -/
def splitOnSlash : List Char → List (List Char)
  | [] => [[]]
  | c :: cs =>
    if c = '/' then [] :: splitOnSlash cs
    else
      match splitOnSlash cs with
      | [] => [[c]]
      | p :: ps => (c :: p) :: ps

theorem splitOnSlash_ne_nil : ∀ l : List Char, splitOnSlash l ≠ []
  | [] => by simp [splitOnSlash]
  | c :: cs => by
    unfold splitOnSlash
    by_cases h : c = '/'
    · simp [h]
    · simp only [if_neg h]
      cases hs : splitOnSlash cs <;> simp

theorem splitOnSlash_eq_of_no_slash :
    ∀ l : List Char, ('/' : Char) ∉ l → splitOnSlash l = [l]
  | [], _ => rfl
  | c :: cs, h => by
    have hc : ¬ c = '/' := fun he => h (by simp [he])
    have hcs : ('/' : Char) ∉ cs := fun hm => h (List.mem_cons_of_mem c hm)
    unfold splitOnSlash
    rw [if_neg hc, splitOnSlash_eq_of_no_slash cs hcs]

theorem no_slash_of_mem_splitOnSlash :
    ∀ (l p : List Char), p ∈ splitOnSlash l → ('/' : Char) ∉ p
  | [], p, hp => by
    simp only [splitOnSlash, List.mem_singleton] at hp
    subst hp; simp
  | c :: cs, p, hp => by
    unfold splitOnSlash at hp
    by_cases hc : c = '/'
    · rw [if_pos hc] at hp
      rcases List.mem_cons.mp hp with h | h
      · subst h; simp
      · exact no_slash_of_mem_splitOnSlash cs p h
    · rw [if_neg hc] at hp
      cases hs : splitOnSlash cs with
      | nil => exact absurd hs (splitOnSlash_ne_nil cs)
      | cons q qs =>
        rw [hs] at hp
        rcases List.mem_cons.mp hp with h | h
        · subst h
          intro hmem
          rcases List.mem_cons.mp hmem with h1 | h1
          · exact hc h1.symm
          · exact no_slash_of_mem_splitOnSlash cs q
              (by rw [hs]; exact List.mem_cons_self q qs) h1
        · exact no_slash_of_mem_splitOnSlash cs p
            (by rw [hs]; exact List.mem_cons_of_mem q h)

/-- Component list of a `pathlib` path string: split on "/", dropping empty
and "." components exactly as `PurePosixPath` normalization does. A path
value is modelled by this component list, which determines its normalized
`str` form. -/
def pathParts (s : String) : List String :=
  ((splitOnSlash s.toList).filter
    (fun p => decide (p ≠ [] ∧ p ≠ ['.']))).map (fun p => String.mk p)

theorem mk_toList (s : String) : String.mk s.toList = s := by
  cases s; rfl

theorem toList_append (s t : String) : (s ++ t).toList = s.toList ++ t.toList := by
  cases s; cases t; rfl

theorem toList_inj {s t : String} (h : s.toList = t.toList) : s = t := by
  cases s with
  | mk l =>
    cases t with
    | mk m => exact congrArg String.mk h

theorem pathParts_of_component (s : String) (h1 : s.toList ≠ [])
    (h2 : s.toList ≠ ['.']) (h3 : ('/' : Char) ∉ s.toList) :
    pathParts s = [s] := by
  unfold pathParts
  rw [splitOnSlash_eq_of_no_slash s.toList h3, List.filter_cons]
  have hg : decide (s.toList ≠ [] ∧ s.toList ≠ ['.']) = true := by
    simp only [decide_eq_true_iff]
    exact ⟨h1, h2⟩
  rw [hg]
  simp [mk_toList]

theorem pathParts_mem_good (s : String) (t : String) (ht : t ∈ pathParts s) :
    t.toList ≠ [] ∧ t.toList ≠ ['.'] ∧ ('/' : Char) ∉ t.toList := by
  unfold pathParts at ht
  rw [List.mem_map] at ht
  obtain ⟨p, hp, hmk⟩ := ht
  rw [List.mem_filter] at hp
  obtain ⟨hmem, hgood⟩ := hp
  have hlist : t.toList = p := by rw [← hmk]; rfl
  rw [decide_eq_true_iff] at hgood
  exact ⟨by rw [hlist]; exact hgood.1, by rw [hlist]; exact hgood.2,
    by rw [hlist]; exact no_slash_of_mem_splitOnSlash s.toList p hmem⟩

/-- Name (last component) of a path given by its component list:
`PurePosixPath.name`, "" for the filesystem root. -/
def pathName (p : List String) : String := p.getLast?.getD ""

/-- The `/` operator of pathlib on a component-list path and a raw child
string: an absolute child replaces the path, otherwise the child's components
are appended. -/
def pathDiv (p : List String) (child : String) : List String :=
  if pyStartsWith child.toList ['/'] then pathParts child else p ++ pathParts child

/-- Embedding of `compute_agent_path` (src/kekkai/cli.py lines 96-99):
`str(root.parent / f"(root.name)-(agent_name)")`, as a component list. -/
def compute_agent_path (root_path agent_name : String) : List String :=
  pathDiv (pathParts root_path).dropLast
    (pathName (pathParts root_path) ++ "-" ++ agent_name)

/-- Embedding of `compute_jj_workspace_name` (src/kekkai/cli.py lines
102-104): `f"(Path(root_path).name)-(agent_name)"`. -/
def compute_jj_workspace_name (root_path agent_name : String) : String :=
  pathName (pathParts root_path) ++ "-" ++ agent_name

theorem pathName_good (root : String) :
    (pathName (pathParts root)).toList = []
    ∨ ((pathName (pathParts root)).toList ≠ []
      ∧ (pathName (pathParts root)).toList ≠ ['.']
      ∧ ('/' : Char) ∉ (pathName (pathParts root)).toList) := by
  unfold pathName
  cases hl : (pathParts root).getLast? with
  | none => left; rfl
  | some b =>
    right
    have hb : b ∈ pathParts root := by
      rcases List.mem_getLast?_eq_getLast (Option.mem_def.mpr hl) with ⟨hne, heq⟩
      rw [heq]
      exact List.getLast_mem hne
    exact pathParts_mem_good root b hb

theorem compute_agent_path_eq (root N : String) (h : ('/' : Char) ∉ N.toList) :
    compute_agent_path root N
      = (pathParts root).dropLast ++ [pathName (pathParts root) ++ "-" ++ N] := by
  have hchild : (pathName (pathParts root) ++ "-" ++ N).toList
      = (pathName (pathParts root)).toList ++ '-' :: N.toList := by
    rw [toList_append, toList_append]
    simp
  have hne : (pathName (pathParts root) ++ "-" ++ N).toList ≠ [] := by
    rw [hchild]
    cases h' : (pathName (pathParts root)).toList <;> simp
  have hdot : (pathName (pathParts root) ++ "-" ++ N).toList ≠ ['.'] := by
    rw [hchild]
    intro heq
    have hm : '-' ∈ (pathName (pathParts root)).toList ++ '-' :: N.toList :=
      List.mem_append_right _ (List.mem_cons_self '-' N.toList)
    rw [heq] at hm
    simp at hm
  have hns : ('/' : Char) ∉ (pathName (pathParts root) ++ "-" ++ N).toList := by
    rw [hchild]
    intro hm
    rcases List.mem_append.mp hm with h1 | h1
    · rcases pathName_good root with hg | hg
      · rw [hg] at h1; simp at h1
      · exact hg.2.2 h1
    · rcases List.mem_cons.mp h1 with h2 | h2
      · simp at h2
      · exact h h2
  have hstart : pyStartsWith (pathName (pathParts root) ++ "-" ++ N).toList ['/']
      = false := by
    rw [hchild]
    rcases pathName_good root with hg | hg
    · rw [hg]
      simp [pyStartsWith]
    · cases hb : (pathName (pathParts root)).toList with
      | nil => simp [pyStartsWith]
      | cons b bs =>
        have hbne : b ≠ '/' := by
          intro hbe
          exact hg.2.2 (by rw [hb, ← hbe]; exact List.mem_cons_self b bs)
        simp [pyStartsWith, hbne]
  unfold compute_agent_path pathDiv
  rw [hstart]
  simp only [Bool.false_eq_true, if_false]
  rw [pathParts_of_component _ hne hdot hns]

/-- C5: for every root path R and agent name N free of the path separator,
the computed workspace path is a sibling of R (same parent components) whose
directory name is `basename(R) + "-" + N`, and the computed VCS workspace
identifier is that same string, i.e. the basename of the sibling path. -/
theorem compute_path_sibling_spec (root N : String)
    (h : ('/' : Char) ∉ N.toList) :
    (compute_agent_path root N).dropLast = (pathParts root).dropLast
    ∧ pathName (compute_agent_path root N) = pathName (pathParts root) ++ "-" ++ N
    ∧ compute_jj_workspace_name root N = pathName (compute_agent_path root N) := by
  have he := compute_agent_path_eq root N h
  refine ⟨?_, ?_, ?_⟩
  · rw [he, List.dropLast_concat]
  · rw [he]
    unfold pathName
    rw [List.getLast?_concat]
    rfl
  · rw [he]
    unfold compute_jj_workspace_name pathName
    rw [List.getLast?_concat]
    rfl

/-- Witness for C5 at root "/tmp/repo" and agent name "alpha": the sibling
path is /tmp/repo-alpha and the VCS id is "repo-alpha". -/
theorem compute_path_sibling_spec_witness :
    (compute_agent_path "/tmp/repo" "alpha").dropLast
      = (pathParts "/tmp/repo").dropLast
    ∧ pathName (compute_agent_path "/tmp/repo" "alpha")
      = pathName (pathParts "/tmp/repo") ++ "-" ++ "alpha"
    ∧ compute_jj_workspace_name "/tmp/repo" "alpha"
      = pathName (compute_agent_path "/tmp/repo" "alpha") :=
  compute_path_sibling_spec "/tmp/repo" "alpha" (by decide)

/-- Counterexample to C6: the program performs no validation of agent names
(`run_agent` and `main` in src/kekkai/cli.py pass the user-supplied name
verbatim to `compute_agent_path`), and for names containing the path
separator the sibling-path function is not injective: the distinct names
"a//b" and "a/b" yield the same workspace path because pathlib drops empty
path components. -/
theorem compute_path_not_injective_counterexample :
    compute_agent_path "/tmp/repo" "a//b" = compute_agent_path "/tmp/repo" "a/b"
    ∧ ("a//b" : String) ≠ "a/b" := by
  constructor
  · decide
  · decide

/-- C6 as amended: for a fixed root, both the sibling-path function and the
workspace-identifier function are injective over agent names that contain no
path separator; the program, however, performs no validation and applies
them to the user-supplied name verbatim, so distinct names containing the
separator may collide. -/
theorem compute_path_injective_amended (root N₁ N₂ : String)
    (h₁ : ('/' : Char) ∉ N₁.toList) (h₂ : ('/' : Char) ∉ N₂.toList) :
    (compute_agent_path root N₁ = compute_agent_path root N₂ → N₁ = N₂)
    ∧ (compute_jj_workspace_name root N₁ = compute_jj_workspace_name root N₂ →
      N₁ = N₂) := by
  have hid : ∀ M₁ M₂ : String,
      pathName (pathParts root) ++ "-" ++ M₁ = pathName (pathParts root) ++ "-" ++ M₂ →
      M₁ = M₂ := by
    intro M₁ M₂ hm
    have hl := congrArg String.toList hm
    rw [toList_append, toList_append, toList_append, toList_append] at hl
    exact toList_inj (List.append_cancel_left hl)
  constructor
  · intro heq
    rw [compute_agent_path_eq root N₁ h₁, compute_agent_path_eq root N₂ h₂] at heq
    have hlast := List.append_cancel_left heq
    simp only [List.cons.injEq, and_true] at hlast
    exact hid N₁ N₂ hlast
  · intro heq
    exact hid N₁ N₂ heq

/-- Witness for C6 (amended): injectivity applied at separator-free names
"a" and "b" under root "/tmp/repo" shows their workspace paths differ. -/
theorem compute_path_injective_amended_witness :
    compute_agent_path "/tmp/repo" "a" ≠ compute_agent_path "/tmp/repo" "b" :=
  fun h => absurd
    ((compute_path_injective_amended "/tmp/repo" "a" "b" (by decide) (by decide)).1 h)
    (by decide)

/-- Python `str.isspace` characters relevant to `str.strip()` for the ASCII
inputs the prompt sees. -/
def pyIsSpace (c : Char) : Bool :=
  c == ' ' || c == '\t' || c == '\n' || c == '\x0d' || c == '\x0b' || c == '\x0c'

/-- Python `str.strip()`: drop whitespace from both ends. -/
def pyStrip (l : List Char) : List Char :=
  ((l.dropWhile pyIsSpace).reverse.dropWhile pyIsSpace).reverse

/-- Python `str.lower()` (ASCII case mapping). -/
def pyLower (l : List Char) : List Char := l.map Char.toLower

/-- The normalized answer of the keep-workspace prompt (src/kekkai/cli.py
lines 267-270): the entered line stripped and lowercased, or "" when
`input()` raised EOFError or KeyboardInterrupt (modelled as `none`). -/
def promptAnswer : Option String → List Char
  | none => []
  | some s => pyLower (pyStrip s.toList)

/-- The keep-vs-clean decision of src/kekkai/cli.py line 273:
the workspace is kept iff the normalized answer is in ("y", "yes"). -/
def keepWorkspace (inp : Option String) : Bool :=
  promptAnswer inp == "y".toList || promptAnswer inp == "yes".toList

/-- Outcome of the step-13 branch of `run_agent`: either the cleanup protocol
runs and removal is reported, or the workspace is kept and its path printed. -/
inductive PostRunAction where
  | cleaned
  | kept
deriving DecidableEq, Repr

/-- Embedding of the step-13 branch of `run_agent` (src/kekkai/cli.py lines
272-277). -/
def postRunAction (inp : Option String) : PostRunAction :=
  if keepWorkspace inp then PostRunAction.kept else PostRunAction.cleaned

/-- C7: at the keep-workspace prompt, for every possible input, only an
explicit affirmative — "y" or "yes" case-insensitively after trimming
whitespace — keeps the workspace; any other input, including end-of-input or
keyboard interrupt (modelled as `none`), leads to cleanup. -/
theorem prompt_keep_spec (inp : Option String) :
    (postRunAction inp = PostRunAction.kept ↔
      ∃ s, inp = some s ∧
        (pyLower (pyStrip s.toList) = "y".toList
          ∨ pyLower (pyStrip s.toList) = "yes".toList))
    ∧ postRunAction none = PostRunAction.cleaned := by
  constructor
  · constructor
    · intro hk
      unfold postRunAction at hk
      by_cases hb : keepWorkspace inp = true
      · cases inp with
        | none => exact absurd hb (by decide)
        | some s =>
          refine ⟨s, rfl, ?_⟩
          unfold keepWorkspace promptAnswer at hb
          rcases Bool.or_eq_true_iff.mp hb with h | h
          · exact Or.inl (eq_of_beq h)
          · exact Or.inr (eq_of_beq h)
      · rw [if_neg hb] at hk
        exact absurd hk (by decide)
    · rintro ⟨s, hs, hy⟩
      subst hs
      have h' : pyLower (pyStrip s.data) = ['y']
          ∨ pyLower (pyStrip s.data) = ['y', 'e', 's'] := hy
      simp only [postRunAction, keepWorkspace, promptAnswer]
      rcases h' with h | h
      · simp [h]
      · simp [h]
  · decide

/-- Witness for C7: the input " YES " (affirmative after trimming and
lowercasing) keeps the workspace; the inputs "n", "", and end-of-input all
lead to cleanup. -/
theorem prompt_keep_spec_witness :
    postRunAction (some " YES ") = PostRunAction.kept
    ∧ postRunAction (some "n") = PostRunAction.cleaned
    ∧ postRunAction none = PostRunAction.cleaned := by
  refine ⟨?_, ?_, (prompt_keep_spec none).2⟩
  · exact (prompt_keep_spec (some " YES ")).1.mpr ⟨" YES ", rfl, by decide⟩
  · by_contra h
    have h2 : postRunAction (some "n") = PostRunAction.kept := by
      cases hc : postRunAction (some "n")
      · exact absurd hc h
      · rfl
    obtain ⟨s, hs, hy⟩ := (prompt_keep_spec (some "n")).1.mp h2
    obtain rfl : s = "n" := by injection hs with h3; exact h3.symm
    revert hy
    decide

/-- Embedding of `has_uncommitted_changes` (src/kekkai/cli.py lines 133-139):
`client.status(cwd=workspace_path)` either returns output (`Except.ok`) or
raises (`Except.error`); any exception is caught and the function returns
False. -/
def has_uncommitted_changes {E : Type} (statusResult : Except E String) : Bool :=
  match statusResult with
  | Except.ok out => strContains out "Working copy changes:"
  | Except.error _ => false

/-- Embedding of the post-run sequence of `run_agent` (src/kekkai/cli.py
lines 262-277): the uncommitted-changes warning is emitted iff the check
returns True, and the flow then proceeds unconditionally to the
keep-workspace prompt. -/
def postAgentFlow {E : Type} (statusResult : Except E String)
    (inp : Option String) : Bool × PostRunAction :=
  (has_uncommitted_changes statusResult, postRunAction inp)

/-- C10: the uncommitted-changes check returns true iff the status query
succeeds and its output contains "Working copy changes:"; a raising status
query yields false, produces no warning, and does not abort the cleanup/keep
flow, whose outcome is the same as for any other input. -/
theorem has_uncommitted_changes_spec {E : Type} (statusResult : Except E String)
    (inp : Option String) :
    (has_uncommitted_changes statusResult = true ↔
      ∃ out, statusResult = Except.ok out
        ∧ strContains out "Working copy changes:" = true)
    ∧ (∀ e : E, has_uncommitted_changes (Except.error e : Except E String) = false)
    ∧ (∀ e : E, postAgentFlow (Except.error e : Except E String) inp
        = (false, postRunAction inp)) := by
  refine ⟨⟨?_, ?_⟩, fun e => rfl, fun e => rfl⟩
  · intro h
    cases statusResult with
    | ok out => exact ⟨out, rfl, h⟩
    | error e => exact absurd h (by simp [has_uncommitted_changes])
  · rintro ⟨out, hout, hc⟩
    subst hout
    exact hc

/-- Witness for C10: a successful status output containing the marker phrase
reports uncommitted changes; a failing status query reports none and the
flow still reaches the prompt decision. -/
theorem has_uncommitted_changes_spec_witness :
    has_uncommitted_changes
      (Except.ok "Working copy changes:\nM foo.py" : Except Unit String) = true
    ∧ has_uncommitted_changes (Except.error () : Except Unit String) = false
    ∧ postAgentFlow (Except.error () : Except Unit String) (some "n")
      = (false, postRunAction (some "n")) := by
  refine ⟨?_, ?_, ?_⟩
  · exact (has_uncommitted_changes_spec
      (Except.ok "Working copy changes:\nM foo.py" : Except Unit String)
      (some "n")).1.mpr ⟨"Working copy changes:\nM foo.py", rfl, by decide⟩
  · exact (has_uncommitted_changes_spec
      (Except.error () : Except Unit String) (some "n")).2.1 ()
  · exact (has_uncommitted_changes_spec
      (Except.error () : Except Unit String) (some "n")).2.2 ()

/-- Filesystem/VCS state relevant to the cleanup protocol of
src/kekkai/cli.py lines 142-168: whether the `.git` sentinel directory, the
marker file, the VCS registration, and the workspace directory exist. -/
structure CleanupState where
  gitDirExists : Bool
  markerExists : Bool
  registered : Bool
  dirExists : Bool
deriving DecidableEq, Repr, Fintype

/-- Fault oracle for cleanup: one bit per side-effecting call, true when that
call raises (e.g. an OSError from `shutil.rmtree`/`unlink`, or a failing
`jj workspace forget` beyond the not-registered case). -/
structure CleanupFaults where
  rmtreeGitFails : Bool
  unlinkMarkerFails : Bool
  forgetFails : Bool
  rmtreeDirFails : Bool
deriving DecidableEq, Repr, Fintype

/-- The four cleanup steps, in source order. -/
inductive CleanupStep where
  | rmGitDir
  | rmMarker
  | forgetWs
  | rmWsDir
deriving DecidableEq, Repr

/-- Result of a cleanup run that did not raise: the final state, the
side-effecting operations attempted in execution order, and the steps whose
failure was caught and reported as a warning on stderr. -/
structure CleanupResult where
  state : CleanupState
  steps : List CleanupStep
  warnings : List CleanupStep
deriving DecidableEq, Repr

/-- Embedding of `cleanup` (src/kekkai/cli.py lines 142-168). Steps one and
two (`shutil.rmtree(git_dir)` if it exists, `marker.unlink()` if it exists)
are not wrapped in try/except in the source, so a fault there propagates
(`Except.error`, carrying the raising step) and aborts the remaining steps.
Steps three (`workspace_forget`, which also raises inside jj when the
workspace is not registered) and four (`shutil.rmtree(workspace_path)`,
which raises when the directory is absent) are wrapped: their failures
become warnings. -/
def cleanup (s : CleanupState) (f : CleanupFaults) :
    Except CleanupStep CleanupResult :=
  let steps1 : List CleanupStep :=
    if s.gitDirExists then [CleanupStep.rmGitDir] else []
  if s.gitDirExists && f.rmtreeGitFails then Except.error CleanupStep.rmGitDir
  else
    let s1 : CleanupState := { s with gitDirExists := false }
    let steps2 : List CleanupStep :=
      if s1.markerExists then [CleanupStep.rmMarker] else []
    if s1.markerExists && f.unlinkMarkerFails then Except.error CleanupStep.rmMarker
    else
      let s2 : CleanupState := { s1 with markerExists := false }
      let forgetOk : Bool := s2.registered && !f.forgetFails
      let s3 : CleanupState :=
        if forgetOk then { s2 with registered := false } else s2
      let w3 : List CleanupStep := if forgetOk then [] else [CleanupStep.forgetWs]
      let rmdirOk : Bool := s3.dirExists && !f.rmtreeDirFails
      let s4 : CleanupState :=
        if rmdirOk then { s3 with dirExists := false } else s3
      let w4 : List CleanupStep := if rmdirOk then [] else [CleanupStep.rmWsDir]
      Except.ok
        { state := s4
          steps := steps1 ++ steps2 ++ [CleanupStep.forgetWs, CleanupStep.rmWsDir]
          warnings := w3 ++ w4 }

/-- Final state of a cleanup run, `none` when cleanup raised. -/
def cleanupOutState (e : Except CleanupStep CleanupResult) : Option CleanupState :=
  match e with
  | Except.ok r => some r.state
  | Except.error _ => none

/-- Attempted-operation trace of a cleanup run, `none` when cleanup raised. -/
def cleanupOutSteps (e : Except CleanupStep CleanupResult) :
    Option (List CleanupStep) :=
  match e with
  | Except.ok r => some r.steps
  | Except.error _ => none

/-- Counterexample to C1: cleanup is not "best-effort and never fatal" in
every step — when the `.git` sentinel directory exists and removing it
raises, `cleanup` propagates the exception (the call is not wrapped in
try/except in the source), aborting the marker deletion, the VCS forget and
the directory removal. -/
theorem cleanup_fatal_counterexample :
    cleanup (CleanupState.mk true true true true)
      (CleanupFaults.mk true false false false)
      = Except.error CleanupStep.rmGitDir := by
  decide

/-- C1 as amended: cleanup attempts its four steps in source order (sentinel
directory, marker file, VCS forget, directory removal); failures of the VCS
forget and of the directory removal are caught and reported without aborting;
the first two steps are guarded by existence checks, so calling cleanup when
artifacts are already absent — in particular calling it a second time after a
successful run — does not raise; but an actual removal failure in step one or
two propagates and aborts the remaining steps. Provided removal of an
existing sentinel directory and of an existing marker file does not fault,
cleanup returns normally with both removed, with the full ordered step trace,
and a repeated cleanup from the resulting state never raises. -/
theorem cleanup_amended_spec (s : CleanupState) (f : CleanupFaults)
    (h1 : s.gitDirExists = true → f.rmtreeGitFails = false)
    (h2 : s.markerExists = true → f.unlinkMarkerFails = false) :
    (∃ st : CleanupState, cleanupOutState (cleanup s f) = some st
      ∧ st.gitDirExists = false ∧ st.markerExists = false
      ∧ ∀ f' : CleanupFaults, cleanupOutState (cleanup st f') ≠ none)
    ∧ cleanupOutSteps (cleanup s f)
      = some ((if s.gitDirExists then [CleanupStep.rmGitDir] else [])
        ++ (if s.markerExists then [CleanupStep.rmMarker] else [])
        ++ [CleanupStep.forgetWs, CleanupStep.rmWsDir]) := by
  revert h1 h2
  revert s f
  decide

/-- Witness for C1 (amended): from a fully-populated state with faults
injected into the forget and directory-removal steps, cleanup still returns
normally. -/
theorem cleanup_amended_spec_witness :
    (∃ st : CleanupState,
      cleanupOutState (cleanup (CleanupState.mk true true true true)
        (CleanupFaults.mk false false true true)) = some st
      ∧ st.gitDirExists = false ∧ st.markerExists = false
      ∧ ∀ f' : CleanupFaults, cleanupOutState (cleanup st f') ≠ none)
    ∧ cleanupOutSteps (cleanup (CleanupState.mk true true true true)
        (CleanupFaults.mk false false true true))
      = some ((if (CleanupState.mk true true true true).gitDirExists
            then [CleanupStep.rmGitDir] else [])
        ++ (if (CleanupState.mk true true true true).markerExists
            then [CleanupStep.rmMarker] else [])
        ++ [CleanupStep.forgetWs, CleanupStep.rmWsDir]) :=
  cleanup_amended_spec (CleanupState.mk true true true true)
    (CleanupFaults.mk false false true true) (fun _ => rfl) (fun _ => rfl)

/-- Length of the common prefix of two character lists. -/
def cpl : List Char → List Char → Nat
  | c :: cs, d :: ds => if c = d then cpl cs ds + 1 else 0
  | _, _ => 0

/-- difflib `SequenceMatcher.find_longest_match` over the full ranges of `a`
and `b` (no junk: the inputs are far below the autojunk threshold): the
triple (i, j, k) of a longest common contiguous block, with the smallest i
and then the smallest j among blocks of maximal length — the fold scans
start positions in lexicographic order and only a strictly longer block
replaces the current best, which reproduces difflib's tie-breaking. -/
def bestBlock (a b : List Char) : Nat × Nat × Nat :=
  (List.range (a.length + 1)).foldl
    (fun acc i =>
      (List.range (b.length + 1)).foldl
        (fun acc2 j =>
          let k := cpl (a.drop i) (b.drop j)
          if acc2.2.2 < k then (i, j, k) else acc2)
        acc)
    (0, 0, 0)

/-- Total size of difflib's matching blocks, fuel-indexed: recursively take
the longest match and recurse on the pieces to its left and to its right.
Each recursive call strictly decreases the combined length of the two lists,
so fuel `a.length + b.length + 1` (as supplied by `matchTotal`) never runs
out before the base case. -/
def matchTotalFuel : Nat → List Char → List Char → Nat
  | 0, _, _ => 0
  | Nat.succ fuel, a, b =>
    let t := bestBlock a b
    if t.2.2 = 0 then 0
    else
      matchTotalFuel fuel (a.take t.1) (b.take t.2.1) + t.2.2
        + matchTotalFuel fuel (a.drop (t.1 + t.2.2)) (b.drop (t.2.1 + t.2.2))

/-- Sum of the sizes of difflib's matching blocks of `a` and `b` (the `M` in
`ratio = 2M/T`). -/
def matchTotal (a b : List Char) : Nat :=
  matchTotalFuel (a.length + b.length + 1) a b

/-- difflib `SequenceMatcher.ratio()` is `2M/T` (1.0 when `T = 0`). The
embedding represents a ratio exactly by the pair `(M, T)` and compares such
ratios by cross-multiplication; for the short strings involved, float
rounding never crosses the 0.5 cutoff or reorders distinct ratios, so exact
arithmetic models the float comparisons. `ratioGeHalf` is `2M/T >= 0.5`. -/
def ratioGeHalf (m t : Nat) : Bool := t ≤ 4 * m

/-- Exact `2*m1/t1 < 2*m2/t2` on ratio pairs, with `t = 0` read as ratio 1
(difflib returns 1.0 for two empty sequences). -/
def ratioLtB (m1 t1 m2 t2 : Nat) : Bool :=
  if t1 = 0 then
    if t2 = 0 then false else t2 < 2 * m2
  else if t2 = 0 then 2 * m1 < t1
  else m1 * t2 < m2 * t1

/-- Exact `2*m1/t1 = 2*m2/t2` on ratio pairs, with `t = 0` read as ratio 1. -/
def ratioEqB (m1 t1 m2 t2 : Nat) : Bool :=
  if t1 = 0 then
    if t2 = 0 then true else t2 == 2 * m2
  else if t2 = 0 then 2 * m1 == t1
  else m1 * t2 == m2 * t1

/-- Python string comparison (lexicographic by code point), used by
`heapq.nlargest` on (ratio, string) tuples. -/
def listLtChars : List Char → List Char → Bool
  | [], [] => false
  | [], _ :: _ => true
  | _ :: _, [] => false
  | c :: cs, d :: ds => if c < d then true else if d < c then false else listLtChars cs ds

/-- Strict "greater" on Python (ratio, string) tuples, the ratio carried as
its `(M, T)` pair. -/
def pairGtB (p q : (Nat × Nat) × String) : Bool :=
  ratioLtB q.1.1 q.1.2 p.1.1 p.1.2
    || (ratioEqB p.1.1 p.1.2 q.1.1 q.1.2 && listLtChars q.2.toList p.2.toList)

/-- Insertion into a descending-sorted list of (ratio, string) tuples. -/
def insertDesc (x : (Nat × Nat) × String) :
    List ((Nat × Nat) × String) → List ((Nat × Nat) × String)
  | [] => [x]
  | y :: ys => if pairGtB y x then y :: insertDesc x ys else x :: y :: ys

/-- Descending sort of (ratio, string) tuples: `heapq.nlargest` is documented
equivalent to `sorted(iterable, reverse=True)[:n]`; candidate strings are
distinct (dict keys), so no equal tuples arise and any correct descending
sort has the same result. -/
def sortDesc (l : List ((Nat × Nat) × String)) : List ((Nat × Nat) × String) :=
  l.foldr insertDesc []

/-- difflib `get_close_matches(word, possibilities, n=3, cutoff=0.5)` as
called by `suggest_agent_names`: keep the possibilities whose ratio against
`word` reaches the cutoff, then the three best by (ratio, string)
descending. (The `real_quick_ratio`/`quick_ratio` pre-checks are upper
bounds of `ratio` and cannot change the outcome.) -/
def get_close_matches (word : String) (possibilities : List String) :
    List String :=
  let scored := possibilities.filterMap fun x =>
    let m := matchTotal x.toList word.toList
    let t := x.length + word.length
    if ratioGeHalf m t then some ((m, t), x) else none
  ((sortDesc scored).take 3).map Prod.snd

/-- Python `str.lower()` on `String`. -/
def lowerStr (s : String) : String := String.mk (pyLower s.toList)

/-- Key list of the dict comprehension `(name.lower(): name for name in
candidates)`: first-occurrence insertion order, duplicates collapsed. -/
def pyDictKeys (ks : List String) : List String :=
  ks.foldl (fun acc k => if acc.contains k then acc else acc ++ [k]) []

/-- Value lookup of that dict: the LAST candidate whose lowercase form is the
key (later comprehension entries overwrite earlier ones). -/
def pyDictGet (candidates : List String) (k : String) : String :=
  candidates.foldl (fun acc c => if lowerStr c = k then c else acc) ""

/-- Embedding of `suggest_agent_names` (src/kekkai/cli.py lines 82-93). -/
def suggest_agent_names (query : String) (candidates : List String) :
    List String :=
  if candidates.isEmpty then []
  else
    let keys := pyDictKeys (candidates.map lowerStr)
    let close := get_close_matches (lowerStr query) keys
    let suggestions := close.map (pyDictGet candidates)
    if suggestions.isEmpty then
      candidates.filter (fun name => strContains (lowerStr name) (lowerStr query))
    else suggestions

/-- Counterexample to C8: the suggestion function can return more than 3
suggestions. For query "a" against four known names "axxx", "ayyy", "azzz",
"awww", every similarity ratio is 2/5 < 0.5, so `get_close_matches` returns
nothing and the unbounded substring fallback returns all four names. -/
theorem suggest_more_than_three_counterexample :
    suggest_agent_names "a" ["axxx", "ayyy", "azzz", "awww"]
      = ["axxx", "ayyy", "azzz", "awww"]
    ∧ (suggest_agent_names "a" ["axxx", "ayyy", "azzz", "awww"]).length = 4 := by
  constructor
  · decide
  · decide

/-- C8 as amended: the similarity stage returns at most 3 case-insensitive
approximate matches, and when it returns any, the suggestion list is exactly
those (at most 3) matches mapped back to their original casing; only when
similarity yields nothing does the function fall back to case-insensitive
substring containment — which returns every containing candidate, possibly
more than 3 — so an exact substring match is still suggested when similarity
scoring finds nothing. -/
theorem suggest_agent_names_amended (query : String) (candidates : List String) :
    (get_close_matches (lowerStr query) (pyDictKeys (candidates.map lowerStr))).length ≤ 3
    ∧ (get_close_matches (lowerStr query) (pyDictKeys (candidates.map lowerStr)) ≠ [] →
      (suggest_agent_names query candidates).length
        = (get_close_matches (lowerStr query) (pyDictKeys (candidates.map lowerStr))).length)
    ∧ (get_close_matches (lowerStr query) (pyDictKeys (candidates.map lowerStr)) = [] →
      suggest_agent_names query candidates
        = candidates.filter (fun name => strContains (lowerStr name) (lowerStr query)))
    ∧ (get_close_matches (lowerStr query) (pyDictKeys (candidates.map lowerStr)) = [] →
      ∀ name ∈ candidates, strContains (lowerStr name) (lowerStr query) = true →
        name ∈ suggest_agent_names query candidates) := by
  have hfall : get_close_matches (lowerStr query) (pyDictKeys (candidates.map lowerStr)) = [] →
      suggest_agent_names query candidates
        = candidates.filter (fun name => strContains (lowerStr name) (lowerStr query)) := by
    intro hnil
    cases candidates with
    | nil => rfl
    | cons c cs =>
      simp only [suggest_agent_names, List.isEmpty_cons, if_false,
        Bool.false_eq_true]
      rw [hnil]
      simp
  refine ⟨?_, ?_, hfall, ?_⟩
  · unfold get_close_matches
    simp only [List.length_map, List.length_take]
    exact Nat.min_le_left _ _
  · intro hne
    cases candidates with
    | nil => exact absurd rfl hne
    | cons c cs =>
      have hmapne : (get_close_matches (lowerStr query)
          (pyDictKeys ((c :: cs).map lowerStr))).map (pyDictGet (c :: cs)) ≠ [] := by
        intro h0
        exact hne (List.map_eq_nil_iff.mp h0)
      simp only [suggest_agent_names, List.isEmpty_cons, if_false,
        Bool.false_eq_true]
      rw [if_neg (by simpa [List.isEmpty_iff] using hmapne)]
      exact List.length_map _ _
  · intro hnil name hmem hcont
    rw [hfall hnil]
    exact List.mem_filter.mpr ⟨hmem, hcont⟩

/-- Witness for C8 (amended): for query "b" against known name "abxxx",
similarity scoring finds nothing (ratio 2/6 < 0.5) and the substring
fallback still suggests "abxxx". -/
theorem suggest_agent_names_amended_witness :
    "abxxx" ∈ suggest_agent_names "b" ["abxxx"] :=
  (suggest_agent_names_amended "b" ["abxxx"]).2.2.2 (by decide) "abxxx"
    (by decide) (by decide)

end Kekkai
